import Mathlib

/-
  Verification development for the FireProxy layer-4 forwarding proxy.

  The definitions below are a shallow embedding of the JavaScript sources:
  * `modules/tcpProxy.js`   — class `DynamicConnectionPool`, `startTCPServer`
  * `modules/udpProxy.js`   — class `UDPProxy`, `startUDPServer`
  * `app.js`                — the per-rule startup loop

  Sockets and timers are represented by natural-number identifiers;
  timestamps (`Date.now()`) are naturals passed explicitly to each
  operation; JavaScript numbers that the code can drive below zero
  (`stats.activeConnections`, `stats.waitingRequests`) are integers;
  the scaling thresholds (0.8, 0.3, ...) are rationals.  Asynchronous
  callbacks are modelled as separate atomic steps on the state, in the
  order Node.js runs them (listener registration order for events on
  one emitter).
-/

namespace FireProxy

/-! ## Generic association-list model of a JavaScript `Map` -/

/-- Lookup in a `Map`: first entry with the given key. -/
def mapLookup {α β : Type} [BEq α] (m : List (α × β)) (k : α) : Option β :=
  (m.find? (fun kv => kv.1 == k)).map (fun kv => kv.2)

/-- JavaScript `Map.set`: replace the entry with the given key, or append a new one. -/
def mapSet {α β : Type} [BEq α] (m : List (α × β)) (k : α) (v : β) : List (α × β) :=
  match m with
  | [] => [(k, v)]
  | kv :: rest => if kv.1 == k then (k, v) :: rest else kv :: mapSet rest k v

/-- JavaScript `Map.delete`: remove the entry with the given key (at most one in a `Map`). -/
def mapDelete {α β : Type} [BEq α] (m : List (α × β)) (k : α) : List (α × β) :=
  match m with
  | [] => []
  | kv :: rest => if kv.1 == k then rest else kv :: mapDelete rest k

/-! ## TCP dynamic connection pool (`modules/tcpProxy.js`, class `DynamicConnectionPool`) -/

/-- Options object accepted by the `DynamicConnectionPool` constructor.
Absent fields are `none`; the constructor applies `||`-defaults. -/
structure PoolOptions where
  minPoolSize : Option Nat := none
  maxPoolSize : Option Nat := none
  initialPoolSize : Option Nat := none
  scaleUpThreshold : Option ℚ := none
  scaleDownThreshold : Option ℚ := none
  scaleUpStep : Option Nat := none
  scaleDownStep : Option Nat := none
deriving DecidableEq

/-- JavaScript `options.x || d` for a numeric option: `0` is falsy. -/
def orDefaultNat (o : Option Nat) (d : Nat) : Nat :=
  match o with
  | none => d
  | some v => if v = 0 then d else v

/-- JavaScript `options.x || d` for a fractional option: `0` is falsy. -/
def orDefaultRat (o : Option ℚ) (d : ℚ) : ℚ :=
  match o with
  | none => d
  | some v => if v = 0 then d else v

/-- A pooled connection: the object pushed in `createConnection`
(`{ socket, idle: true, created: Date.now(), totalBytes: 0, errors: 0 }`). -/
structure Conn where
  socket : Nat
  idle : Bool
  created : Nat
  totalBytes : Nat
  errors : Nat
deriving DecidableEq

/-- The `stats` block of the pool.  `activeConnections` and
`waitingRequests` are decremented by the code and are therefore
modelled as integers (JavaScript numbers can go negative). -/
structure Stats where
  totalConnections : Nat
  activeConnections : Int
  errors : Nat
  reconnects : Nat
  poolScales : Nat
  waitingRequests : Int
deriving DecidableEq

/-- An entry of `waitingQueue`: the `resolve` callback is identified by
`wid`, `timestamp` is the enqueue time. -/
structure Waiter where
  wid : Nat
  timestamp : Nat
deriving DecidableEq

/-- The mutable state of a `DynamicConnectionPool`. -/
structure PoolState where
  targetHost : String
  targetPort : Int
  minPoolSize : Nat
  maxPoolSize : Nat
  initialPoolSize : Nat
  scaleUpThreshold : ℚ
  scaleDownThreshold : ℚ
  scaleUpStep : Nat
  scaleDownStep : Nat
  pool : List Conn
  waitingQueue : List Waiter
  stats : Stats
  highWaterMark : Nat
  connectTimeout : Nat
  keepAliveInterval : Nat
  idleTimeout : Nat
  lastActivity : List (Nat × Nat)
  prewarmingInProgress : Bool
  scalingLock : Bool
  lastScaleTime : Nat
  scaleInterval : Nat
deriving DecidableEq

/-- The `DynamicConnectionPool` constructor (fields only; the
`cleanup`/`monitor` intervals and the initial `prewarm()` dials are
modelled as separate steps). -/
def mkPool (targetHost : String) (targetPort : Int) (options : PoolOptions) : PoolState :=
  { targetHost := targetHost
    targetPort := targetPort
    minPoolSize := orDefaultNat options.minPoolSize 5
    maxPoolSize := orDefaultNat options.maxPoolSize 50
    initialPoolSize := orDefaultNat options.initialPoolSize 10
    scaleUpThreshold := orDefaultRat options.scaleUpThreshold (mkRat 4 5)
    scaleDownThreshold := orDefaultRat options.scaleDownThreshold (mkRat 3 10)
    scaleUpStep := orDefaultNat options.scaleUpStep 3
    scaleDownStep := orDefaultNat options.scaleDownStep 1
    pool := []
    waitingQueue := []
    stats := { totalConnections := 0, activeConnections := 0, errors := 0,
               reconnects := 0, poolScales := 0, waitingRequests := 0 }
    highWaterMark := 128 * 1024
    connectTimeout := 3000
    keepAliveInterval := 15000
    idleTimeout := 180000
    lastActivity := []
    prewarmingInProgress := false
    scalingLock := false
    lastScaleTime := 0
    scaleInterval := 5000 }

/-- Completion of one `createConnection()` dial at time `now` yielding
socket `s`: the `connect` handler pushes the connection (idle) and
records activity; the dialled socket is resolved to the caller. -/
def createComplete (now : Nat) (s : Nat) (st : PoolState) : PoolState :=
  { st with
    pool := st.pool ++ [{ socket := s, idle := true, created := now, totalBytes := 0, errors := 0 }]
    stats := { st.stats with totalConnections := st.stats.totalConnections + 1 }
    lastActivity := mapSet st.lastActivity s now }

/-- Operation `removeConnection(socket)`: splice the first pool entry with this
socket (decrementing `activeConnections` if positive), drop its
activity record, and pop the head waiter if any (the popped waiter is
re-serviced by an asynchronous `getConnection()` via `setImmediate`). -/
def removeConnection (s : Nat) (st : PoolState) : PoolState :=
  let st1 :=
    match st.pool.find? (fun c => c.socket == s) with
    | some _ =>
      { st with
        pool := st.pool.eraseP (fun c => c.socket == s)
        stats := { st.stats with activeConnections :=
          if 0 < st.stats.activeConnections then st.stats.activeConnections - 1
          else st.stats.activeConnections } }
    | none => st
  let st2 := { st1 with lastActivity := mapDelete st1.lastActivity s }
  match st2.waitingQueue with
  | [] => st2
  | _ :: rest =>
    { st2 with
      waitingQueue := rest
      stats := { st2.stats with waitingRequests := st2.stats.waitingRequests - 1 } }

/-- Score of a connection in `getConnection`:
`(1000 - conn.errors) + (Date.now() - conn.created) / 1000`. -/
def connScore (now : Nat) (c : Conn) : ℚ :=
  ((1000 : ℚ) - (c.errors : ℚ)) + (((now : ℚ) - (c.created : ℚ)) / 1000)

/-- The selection loop of `getConnection`: scan the pool, keeping the
idle connection with the strictly highest score (`bestScore` starts
at `-1`). -/
def selectBest (now : Nat) (pool : List Conn) : Option Conn :=
  (pool.foldl
    (fun (acc : Option Conn × ℚ) c =>
      if c.idle then
        if connScore now c > acc.2 then (some c, connScore now c) else acc
      else acc)
    (none, (-1 : ℚ))).1

/-- Set the `idle` flag of the first pool entry with the given socket. -/
def setIdleFirst : List Conn → Nat → Bool → List Conn
  | [], _, _ => []
  | c :: rest, s, b =>
    if c.socket == s then { c with idle := b } :: rest
    else c :: setIdleFirst rest s b

/-- Outcome of the synchronous part of `getConnection()`. -/
inductive GetResult where
  | socket (s : Nat)
  | dial
  | queued (w : Waiter)
deriving DecidableEq

/-- The waiting-request timeout of `getConnection` (milliseconds). -/
def waiterTimeoutMs : Nat := 5000

/-- Synchronous decision of `getConnection()` at time `now` for a caller
identified by `wid`: hand out the best idle connection, else decide to
dial (`pool.length < maxPoolSize` and no scaling lock; the dial result
arrives later as a `createComplete` step), else enqueue the caller. -/
def getConnectionStep (now : Nat) (wid : Nat) (st : PoolState) : PoolState × GetResult :=
  match selectBest now st.pool with
  | some best =>
    ({ st with
       pool := setIdleFirst st.pool best.socket false
       stats := { st.stats with activeConnections := st.stats.activeConnections + 1 }
       lastActivity := mapSet st.lastActivity best.socket now },
     GetResult.socket best.socket)
  | none =>
    if st.pool.length < st.maxPoolSize && !st.scalingLock then
      (st, GetResult.dial)
    else
      ({ st with
         waitingQueue := st.waitingQueue ++ [{ wid := wid, timestamp := now }]
         stats := { st.stats with waitingRequests := st.stats.waitingRequests + 1 } },
       GetResult.queued { wid := wid, timestamp := now })

/-- Firing of the 5 s `setTimeout` armed for waiter `wid`: if the waiter
is still queued, splice it out and resolve it with `null`.  The `Bool`
result records whether `resolve(null)` fired. -/
def waiterTimeoutFire (wid : Nat) (st : PoolState) : PoolState × Bool :=
  if st.waitingQueue.any (fun w => w.wid == wid) then
    ({ st with
       waitingQueue := st.waitingQueue.eraseP (fun w => w.wid == wid)
       stats := { st.stats with waitingRequests := st.stats.waitingRequests - 1 } },
     true)
  else (st, false)

/-- Operation `releaseConnection(socket)` at time `now`.  If the socket is pooled:
mark it idle, decrement `activeConnections`, record activity; then, if
a waiter is queued, pop the head, mark the connection busy again,
re-increment `activeConnections` and resolve the waiter with this very
socket (returned as `some wid`). -/
def releaseConnection (now : Nat) (s : Nat) (st : PoolState) : PoolState × Option Nat :=
  match st.pool.find? (fun c => c.socket == s) with
  | none => (st, none)
  | some _ =>
    let st1 :=
      { st with
        pool := setIdleFirst st.pool s true
        stats := { st.stats with activeConnections := st.stats.activeConnections - 1 }
        lastActivity := mapSet st.lastActivity s now }
    match st1.waitingQueue with
    | [] => (st1, none)
    | w :: rest =>
      ({ st1 with
         waitingQueue := rest
         stats := { st1.stats with
           waitingRequests := st1.stats.waitingRequests - 1
           activeConnections := st1.stats.activeConnections + 1 }
         pool := setIdleFirst st1.pool s false },
       some w.wid)

/-- Activity timestamp used by `cleanup`:
`this.lastActivity.get(conn.socket) || conn.created` (`0` is falsy). -/
def lastActForCleanup (st : PoolState) (c : Conn) : Nat :=
  match mapLookup st.lastActivity c.socket with
  | none => c.created
  | some t => if t = 0 then c.created else t

/-- The 30 s `cleanup()` tick at time `now`: destroy idle connections
whose activity age exceeds `idleTimeout`, then drop waiters older than
10 s and reset `waitingRequests` to the queue length. -/
def cleanup (now : Nat) (st : PoolState) : PoolState :=
  let stale := fun c => c.idle && decide (now - lastActForCleanup st c > st.idleTimeout)
  let removed := st.pool.filter stale
  let keptQueue := st.waitingQueue.filter (fun q => decide (now - q.timestamp ≤ 10000))
  { st with
    pool := st.pool.filter (fun c => !(stale c))
    lastActivity := removed.foldl (fun m c => mapDelete m c.socket) st.lastActivity
    waitingQueue := keptQueue
    stats := { st.stats with waitingRequests := (keptQueue.length : Int) } }

/-- Backward scan of `scaleDown()` over the reversed pool: destroy up to
`k` idle connections, starting from the end of the array. -/
def scaleDownLoop : Nat → List Conn → List Conn × List Conn
  | _, [] => ([], [])
  | 0, l => (l, [])
  | Nat.succ k, c :: rest =>
    if c.idle then
      let p := scaleDownLoop k rest
      (p.1, c :: p.2)
    else
      let p := scaleDownLoop (Nat.succ k) rest
      (c :: p.1, p.2)

/-- Operation `scaleDown()` at time `now`: take the scaling lock, stamp
`lastScaleTime`, remove up to `min scaleDownStep (size - minPoolSize)`
idle connections from the end of the pool, release the lock. -/
def scaleDown (now : Nat) (st : PoolState) : PoolState :=
  let targetDecrease := min st.scaleDownStep (st.pool.length - st.minPoolSize)
  let p := scaleDownLoop targetDecrease st.pool.reverse
  { st with
    pool := p.1.reverse
    lastActivity := p.2.foldl (fun m c => mapDelete m c.socket) st.lastActivity
    scalingLock := false
    lastScaleTime := now }

/-- Synchronous start of `scaleUp()` at time `now`: take the lock, stamp
`lastScaleTime`; returns how many dials are issued
(`min scaleUpStep (maxPoolSize - size)`); each successful dial later
arrives as a `createComplete` step. -/
def scaleUpStart (now : Nat) (st : PoolState) : PoolState × Nat :=
  ({ st with scalingLock := true, lastScaleTime := now },
   min st.scaleUpStep (st.maxPoolSize - st.pool.length))

/-- Completion of `scaleUp()`: bump `poolScales`, release the lock. -/
def scaleUpFinish (st : PoolState) : PoolState :=
  { st with
    stats := { st.stats with poolScales := st.stats.poolScales + 1 }
    scalingLock := false }

/-- The `activeRatio` computed by `monitor()`: `active / total`, defined as
`0` for an empty pool. -/
def activeRatio (st : PoolState) : ℚ :=
  if st.pool.length > 0 then (st.stats.activeConnections : ℚ) / (st.pool.length : ℚ)
  else 0

/-- Decision taken by one `monitor()` tick. -/
inductive ScaleDecision where
  | none
  | up
  | down
deriving DecidableEq

/-- The 10 s `monitor()` tick at time `now`: return early under the
scaling lock or within `scaleInterval` of the last scaling, otherwise
compare `activeRatio` against the two thresholds. -/
def monitorDecision (now : Nat) (st : PoolState) : ScaleDecision :=
  if st.scalingLock || decide (now - st.lastScaleTime < st.scaleInterval) then
    ScaleDecision.none
  else if activeRatio st > st.scaleUpThreshold ∧ st.pool.length < st.maxPoolSize then
    ScaleDecision.up
  else if activeRatio st < st.scaleDownThreshold ∧ st.pool.length > st.minPoolSize then
    ScaleDecision.down
  else
    ScaleDecision.none

/-- State effect of one `monitor()` tick (the `up` branch only starts
the asynchronous `scaleUp`). -/
def monitorStep (now : Nat) (st : PoolState) : PoolState :=
  match monitorDecision now st with
  | ScaleDecision.none => st
  | ScaleDecision.up => (scaleUpStart now st).1
  | ScaleDecision.down => scaleDown now st

/-- Number of idle pool entries (the `idleConnections` gauge of
`getStats()`). -/
def countIdle (pool : List Conn) : Nat :=
  (pool.filter (fun c => c.idle)).length

/-- The `active + idle == total` stats equation of the specification. -/
def poolInvariantHolds (st : PoolState) : Bool :=
  st.stats.activeConnections + (countIdle st.pool : Int) == (st.pool.length : Int)

/-! ## TCP forwarder error handlers (`startTCPServer`, per-connection handlers)

The handlers installed on an accepted pair `(tcpLocalSocket, tcpTargetSocket)`:

* `tcpLocalSocket.on error`: log; `cleanup()` (unpipe only, no pool
  effect); `pool.releaseConnection(tcpTargetSocket)`;
  `tcpTargetSocket.destroy()`.  The destroy fires the target socket's
  `close` event, whose pool-internal listener calls
  `removeConnection`.

* `tcpTargetSocket.on error`: the pool-internal `error` listener
  (registered first, in `createConnection`) runs first: bump the
  connection's and the pool's error counters, `removeConnection`.
  Then the forwarder's listener runs: `cleanup()`;
  `pool.releaseConnection(tcpTargetSocket)`; `tcpLocalSocket.destroy()`.
  Node then emits `close` on the errored target socket, whose
  pool-internal listener calls `removeConnection` once more. -/

/-- Bump the error counter of the first pool entry with this socket
(the closure in `createConnection` mutates that very object). -/
def bumpErrorsFirst : List Conn → Nat → List Conn
  | [], _ => []
  | c :: rest, s =>
    if c.socket == s then { c with errors := c.errors + 1 } :: rest
    else c :: bumpErrorsFirst rest s

/-- Effect on the pool of an error on the client (local) socket of a
forwarding pair whose upstream socket is `s`: release, then the
destroy-triggered removal.  The `Option Nat` is the waiter (if any) to
which `releaseConnection` handed the socket `s`. -/
def onLocalError (now : Nat) (s : Nat) (st : PoolState) : PoolState × Option Nat :=
  let p := releaseConnection now s st
  (removeConnection s p.1, p.2)

/-- Effect on the pool of an error on the upstream (target) socket `s`
of a forwarding pair: pool-internal error listener (counters + removal),
then the forwarder's release, then the close-triggered removal.
The `Option Nat` is the waiter (if any) to which the release handed `s`. -/
def onTargetError (now : Nat) (s : Nat) (st : PoolState) : PoolState × Option Nat :=
  let st1 :=
    { st with
      pool := bumpErrorsFirst st.pool s
      stats := { st.stats with errors := st.stats.errors + 1 } }
  let st2 := removeConnection s st1
  let p := releaseConnection now s st2
  (removeConnection s p.1, p.2)

/-- Action the forwarder takes with the result of `pool.getConnection()`:
a `null` result destroys the accepted client socket, a socket is proxied. -/
inductive ForwarderAction where
  | destroyClient
  | proxy
deriving DecidableEq

/-- The `if (!tcpTargetSocket) { tcpLocalSocket.destroy(); return; }`
branch of the accepted-connection handler. -/
def handleAcquired (r : Option Nat) : ForwarderAction :=
  match r with
  | none => ForwarderAction.destroyClient
  | some _ => ForwarderAction.proxy

/-! ## UDP proxy (`modules/udpProxy.js`, class `UDPProxy`) -/

/-- The `rinfo` of an inbound datagram: source address and port. -/
structure UDPClientInfo where
  address : String
  port : Nat
deriving DecidableEq

/-- A session entry of `this.clients`: the stored client info, its
dedicated upstream socket, and the last-activity timestamp. -/
structure UDPClient where
  info : UDPClientInfo
  targetSocket : Nat
  lastActivity : Nat
deriving DecidableEq

/-- The UDP `stats` block. -/
structure UDPStats where
  messagesForwarded : Nat
  clientConnections : Nat
  errors : Nat
deriving DecidableEq

/-- The mutable state of a `UDPProxy`.  `server` is `none` before
`start()` binds the socket, `some closed` afterwards; `closedSockets`
logs the upstream sockets closed so far. -/
structure UDPProxyState where
  localHost : String
  localPort : Int
  targetHost : String
  targetPort : Int
  clients : List (String × UDPClient)
  stats : UDPStats
  clientTimeout : Nat
  bufferSize : Nat
  cleanupActive : Bool
  server : Option Bool
  closedSockets : List Nat
deriving DecidableEq

/-- The `UDPProxy` constructor. -/
def mkUDPProxy (localHost : String) (localPort : Int)
    (targetHost : String) (targetPort : Int) : UDPProxyState :=
  { localHost := localHost
    localPort := localPort
    targetHost := targetHost
    targetPort := targetPort
    clients := []
    stats := { messagesForwarded := 0, clientConnections := 0, errors := 0 }
    clientTimeout := 300000
    bufferSize := 64 * 1024
    cleanupActive := false
    server := none
    closedSockets := [] }

/-- Operation `start()`: bind the server socket and arm the 60 s cleanup interval. -/
def udpStart (st : UDPProxyState) : UDPProxyState :=
  { st with server := some false, cleanupActive := true }

/-- The session key: `` `${clientInfo.address}:${clientInfo.port}` ``. -/
def clientKey (info : UDPClientInfo) : String :=
  info.address ++ ":" ++ toString info.port

/-- Operation `handleMessage(message, clientInfo)` at time `now`: look up (or
create, with fresh upstream socket `freshSock`) the session, stamp
`lastActivity := Date.now()`, and send the datagram upstream (the
send callback updating `messagesForwarded`/`errors` is asynchronous
and outcome-dependent; it is not part of this step). -/
def handleMessage (now : Nat) (freshSock : Nat) (info : UDPClientInfo)
    (st : UDPProxyState) : UDPProxyState :=
  match mapLookup st.clients (clientKey info) with
  | none =>
    { st with
      clients := mapSet st.clients (clientKey info)
        { info := info, targetSocket := freshSock, lastActivity := now }
      stats := { st.stats with clientConnections := st.stats.clientConnections + 1 } }
  | some c =>
    { st with
      clients := mapSet st.clients (clientKey info) { c with lastActivity := now } }

/-- Operation `removeClient(clientInfo)`: if the session exists, close its
upstream socket and delete it from the table. -/
def removeClient (info : UDPClientInfo) (st : UDPProxyState) : UDPProxyState :=
  match mapLookup st.clients (clientKey info) with
  | none => st
  | some c =>
    { st with
      clients := mapDelete st.clients (clientKey info)
      closedSockets := st.closedSockets ++ [c.targetSocket] }

/-- The 60 s `cleanupStaleClients()` sweep at time `now`: destroy every
session with `now - lastActivity > clientTimeout`. -/
def cleanupStaleClients (now : Nat) (st : UDPProxyState) : UDPProxyState :=
  st.clients.foldl
    (fun acc kv =>
      if now - kv.2.lastActivity > acc.clientTimeout then removeClient kv.2.info acc
      else acc)
    st

/-- The sweep loop of `cleanupStaleClients`, generalized to an
arbitrary remaining entry list `l` (the loop iterates the entries of
the table as they were when the sweep started, removing stale ones
from the accumulated state). -/
def cleanupGo (now : Nat) (l : List (String × UDPClient)) (acc : UDPProxyState) :
    UDPProxyState :=
  l.foldl
    (fun acc kv =>
      if now - kv.2.lastActivity > acc.clientTimeout then removeClient kv.2.info acc
      else acc)
    acc

/-- Operation `stop()`: cancel the cleanup interval, close every session's
upstream socket, clear the table, then `if (this.server) this.server.close()`.
`stop()` never nulls `this.server`, and Node's `dgram.Socket.close()`
throws `ERR_SOCKET_DGRAM_NOT_RUNNING` when the socket's handle was
already nulled by an earlier close — so closing an already-closed
server throws.  The result is the state as mutated up to the point of
return or throw, paired with the thrown error, if any (session sockets
in the table are always open, since `removeClient` closes and deletes
together, so only the server close can throw here). -/
def udpStop (st : UDPProxyState) : UDPProxyState × Option String :=
  let st1 : UDPProxyState :=
    { st with
      cleanupActive := false
      closedSockets := st.closedSockets ++ st.clients.map (fun kv => kv.2.targetSocket)
      clients := [] }
  match st1.server with
  | none => (st1, none)
  | some closed =>
    if closed then (st1, some "ERR_SOCKET_DGRAM_NOT_RUNNING")
    else ({ st1 with server := some true }, none)

/-! ## Rule binder (`startTCPServer` / `startUDPServer` / `app.js` loop) -/

/-- A forwarding rule from `config.json`. -/
structure Rule where
  id : Nat
  name : Option String
  status : String
  type : String
  localHost : String
  targetHost : String
  localPort : Option Int
  targetPort : Option Int
  localPortRange : Option (List Int)
  targetPortRange : Option (List Int)
deriving DecidableEq

/-- JavaScript truthiness of `rule.localPort` (a number: `0` is falsy). -/
def truthyPort : Option Int → Bool
  | none => false
  | some p => p != 0

/-- The rejection condition of the range validation, common to
`startTCPServer` and `startUDPServer` (the `Array.isArray` conjuncts
are vacuous for a list model):
array lengths ≠ 2, start > end on either range, or unequal lengths. -/
def rangeReject (lpr tpr : List Int) : Bool :=
  lpr.length != 2 || tpr.length != 2 ||
  decide (lpr.getD 0 0 > lpr.getD 1 0) || decide (tpr.getD 0 0 > tpr.getD 1 0) ||
  decide (lpr.getD 1 0 - lpr.getD 0 0 ≠ tpr.getD 1 0 - tpr.getD 0 0)

/-- The pool options passed by the port-range branch of
`startTCPServer` to every per-target-port `DynamicConnectionPool`. -/
def rangePoolOptions : PoolOptions :=
  { minPoolSize := some 3
    maxPoolSize := some 30
    initialPoolSize := some 8
    scaleUpThreshold := some (mkRat 3 4)
    scaleDownThreshold := some (mkRat 1 4) }

/-- One TCP forwarder produced by `startTCPServer`: a listener on
`localPort` backed by a pool toward `targetPort`, constructed with
`poolOptions`. -/
structure TCPForwarder where
  localPort : Int
  targetPort : Int
  poolOptions : PoolOptions
deriving DecidableEq

/-- Function `startTCPServer(rule)`: the range branch validates and expands the
ranges into parallel forwarders (pools keyed by target port; distinct
for a strictly parallel range), the single-port branch builds one
forwarder whose pool uses the constructor defaults, anything else
yields no forwarder. -/
def startTCPServer (rule : Rule) : List TCPForwarder :=
  match rule.localPortRange, rule.targetPortRange with
  | some lpr, some tpr =>
    if rangeReject lpr tpr then []
    else
      let localStart := lpr.getD 0 0
      let localEnd := lpr.getD 1 0
      let targetStart := tpr.getD 0 0
      (List.range ((localEnd - localStart).toNat + 1)).map (fun i =>
        { localPort := localStart + (i : Int)
          targetPort := targetStart + (i : Int)
          poolOptions := rangePoolOptions })
  | _, _ =>
    if truthyPort rule.localPort && truthyPort rule.targetPort then
      match rule.localPort, rule.targetPort with
      | some lp, some tp => [{ localPort := lp, targetPort := tp, poolOptions := {} }]
      | _, _ => []
    else []

/-- Function `startUDPServer(rule)`: same validation and expansion shape as the
TCP path; each pair yields a constructed `UDPProxy`. -/
def startUDPServer (rule : Rule) : List UDPProxyState :=
  match rule.localPortRange, rule.targetPortRange with
  | some lpr, some tpr =>
    if rangeReject lpr tpr then []
    else
      let localStart := lpr.getD 0 0
      let localEnd := lpr.getD 1 0
      let targetStart := tpr.getD 0 0
      (List.range ((localEnd - localStart).toNat + 1)).map (fun i =>
        mkUDPProxy rule.localHost (localStart + (i : Int))
          rule.targetHost (targetStart + (i : Int)))
  | _, _ =>
    if truthyPort rule.localPort && truthyPort rule.targetPort then
      match rule.localPort, rule.targetPort with
      | some lp, some tp => [mkUDPProxy rule.localHost lp rule.targetHost tp]
      | _, _ => []
    else []

/-- A forwarder registered by the `app.js` startup loop. -/
inductive StartedForwarder where
  | tcp (f : TCPForwarder)
  | udp (p : UDPProxyState)
deriving DecidableEq

/-- What the `app.js` loop body does for one rule: active TCP and UDP
rules are started (possibly yielding no forwarder), everything else is
logged and skipped. -/
def startRule (r : Rule) : List StartedForwarder :=
  if r.status == "active" then
    if r.type == "tcp" then (startTCPServer r).map StartedForwarder.tcp
    else if r.type == "udp" then (startUDPServer r).map StartedForwarder.udp
    else []
  else []

/-- The `config.forward.forEach` startup loop: every rule is processed
independently, in order. -/
def startAllRules (rules : List Rule) : List StartedForwarder :=
  (rules.map startRule).flatten

/-! ## Concrete states used by the claim theorems -/

/-- A freshly constructed default pool (single-port branch:
`new DynamicConnectionPool(targetHost, targetPort)`). -/
def defaultPool : PoolState := mkPool "10.0.0.1" 8001 {}

/-- Pool state after the dial path of `getConnection` completed with
socket `7` at time `0`: the handed-out connection is still flagged
idle and `activeConnections` was never incremented. -/
def dialHandoutSt : PoolState := createComplete 0 7 defaultPool

/-- State after the forwarder returns socket `7`:
`releaseConnection(7)` on `dialHandoutSt`. -/
def dialReleaseSt : PoolState := (releaseConnection 1 7 dialHandoutSt).1

/-- Two error-free idle connections of different ages
(`socket 1` created at `0`, `socket 2` created at `5000`). -/
def agePoolSt : PoolState := createComplete 5000 2 (createComplete 0 1 defaultPool)

/-- An error-free fresh connection next to a two-error two-hour-old one. -/
def errPoolSt : PoolState :=
  { defaultPool with
    pool := [{ socket := 1, idle := true, created := 7200000, totalBytes := 0, errors := 0 },
             { socket := 2, idle := true, created := 0, totalBytes := 0, errors := 2 }] }

/-- A pool saturated at `maxPoolSize = 1` by one busy connection. -/
def saturatedPoolSt : PoolState :=
  { mkPool "10.0.0.1" 8001 { maxPoolSize := some 1 } with
    pool := [{ socket := 3, idle := false, created := 0, totalBytes := 0, errors := 0 }]
    stats := { totalConnections := 1, activeConnections := 1, errors := 0,
               reconnects := 0, poolScales := 0, waitingRequests := 0 }
    lastActivity := [(3, 0)] }

/-- A TCP rule whose two port ranges both have length 1. -/
def lengthOneRangeRule (p q : Int) : Rule :=
  { id := 1, name := none, status := "active", type := "tcp",
    localHost := "127.0.0.1", targetHost := "10.0.0.1",
    localPort := none, targetPort := none,
    localPortRange := some [p, p], targetPortRange := some [q, q] }

/-- The equivalent single-port TCP rule. -/
def singlePortRule (p q : Int) : Rule :=
  { id := 1, name := none, status := "active", type := "tcp",
    localHost := "127.0.0.1", targetHost := "10.0.0.1",
    localPort := some p, targetPort := some q,
    localPortRange := none, targetPortRange := none }

/-- The invalid rule of the specification's scenario 6: a local range
of length 3 against a target range of length 2. -/
def mismatchedRangeRule : Rule :=
  { id := 2, name := none, status := "active", type := "tcp",
    localHost := "127.0.0.1", targetHost := "10.0.0.1",
    localPort := none, targetPort := none,
    localPortRange := some [10, 12], targetPortRange := some [20, 21] }

/-- A forwarding pair whose upstream connection (socket `5`) is lent
out while one acquirer (waiter `9`) is queued. -/
def erroredPairSt : PoolState :=
  { mkPool "10.0.0.1" 8001 {} with
    pool := [{ socket := 5, idle := false, created := 0, totalBytes := 0, errors := 0 }]
    waitingQueue := [{ wid := 9, timestamp := 50 }]
    stats := { totalConnections := 1, activeConnections := 1, errors := 0,
               reconnects := 0, poolScales := 0, waitingRequests := 1 }
    lastActivity := [(5, 0)] }

/-- A started UDP proxy with two sessions: one created at time `0`
(upstream socket `31`), one created at time `200000` (upstream socket
`32`). -/
def udpSessionsSt : UDPProxyState :=
  handleMessage 200000 32 { address := "5.6.7.8", port := 2000 }
    (handleMessage 0 31 { address := "1.2.3.4", port := 1000 }
      (udpStart (mkUDPProxy "127.0.0.1" 29172 "127.0.0.1" 8002)))

/-! ## Claim C1 — `active + idle == total` stats invariant -/

/-- Claim C1 fails on the code: from a fresh default pool,
`getConnection` takes the dial path (no idle connection), the dial
completes handing out socket `7` while its pool entry stays idle and
`activeConnections` stays `0` (the invariant still holds numerically),
and the subsequent `releaseConnection(7)` decrements
`activeConnections` to `-1`, after which
`activeConnections + idleConnections = 0 ≠ 1 = poolSize`. -/
theorem pool_stats_invariant_violated :
    (getConnectionStep 0 0 defaultPool).2 = GetResult.dial ∧
    poolInvariantHolds dialHandoutSt = true ∧
    dialHandoutSt.stats.activeConnections = 0 ∧
    dialReleaseSt.stats.activeConnections = -1 ∧
    poolInvariantHolds dialReleaseSt = false := by
  decide

/-! ## Claim C2 — best-idle selection order -/

/-- Claim C2 fails on the code: the score
`(1000 - errors) + (now - created) / 1000` grows with age, so among
two error-free idle connections `getConnection` at time `10000` picks
socket `1` (created at `0`), the oldest, not the newest; and at time
`7200000` it picks socket `2` (two errors, created at `0`) over the
error-free socket `1`, because two hours of age outweigh the error
penalty. -/
theorem get_connection_selection_order_violated :
    (getConnectionStep 10000 0 agePoolSt).2 = GetResult.socket 1 ∧
    (getConnectionStep 7200000 0 errPoolSt).2 = GetResult.socket 2 := by
  constructor <;>
    norm_num [getConnectionStep, selectBest, connScore, agePoolSt, errPoolSt,
      createComplete, defaultPool, mkPool, mapSet, orDefaultNat, orDefaultRat]

/-! ## Claim C4 — waiter FIFO, 5 s timeout, null handling -/

/-- Claim C4: when no idle connection exists and no new connection can
be dialled, `getConnection` appends the caller to the waiter FIFO and
arms a 5000 ms timeout; if the timeout fires while the caller is still
queued, the caller is spliced out of the queue (restoring it and the
`waitingRequests` gauge) and resolved with `null`; the forwarder
destroys the accepted client socket on a `null` acquisition. -/
theorem waiter_fifo_timeout_null (now wid : Nat) (st : PoolState)
    (hNoIdle : selectBest now st.pool = none)
    (hNoDial : (decide (st.pool.length < st.maxPoolSize) && !st.scalingLock) = false)
    (hFresh : ∀ w ∈ st.waitingQueue, (w.wid == wid) = false) :
    (getConnectionStep now wid st).2 = GetResult.queued { wid := wid, timestamp := now } ∧
    (getConnectionStep now wid st).1.waitingQueue
      = st.waitingQueue ++ [({ wid := wid, timestamp := now } : Waiter)] ∧
    waiterTimeoutMs = 5000 ∧
    (waiterTimeoutFire wid (getConnectionStep now wid st).1).2 = true ∧
    (waiterTimeoutFire wid (getConnectionStep now wid st).1).1.waitingQueue
      = st.waitingQueue ∧
    (waiterTimeoutFire wid (getConnectionStep now wid st).1).1.stats.waitingRequests
      = st.stats.waitingRequests ∧
    handleAcquired none = ForwarderAction.destroyClient := by
  have hstep : getConnectionStep now wid st
      = ({ st with
            waitingQueue := st.waitingQueue ++ [{ wid := wid, timestamp := now }]
            stats := { st.stats with waitingRequests := st.stats.waitingRequests + 1 } },
         GetResult.queued { wid := wid, timestamp := now }) := by
    simp [getConnectionStep, hNoIdle, hNoDial]
  have hany : (st.waitingQueue ++ [({ wid := wid, timestamp := now } : Waiter)]).any
      (fun w => w.wid == wid) = true := by
    simp
  have herase : (st.waitingQueue ++ [({ wid := wid, timestamp := now } : Waiter)]).eraseP
      (fun w => w.wid == wid) = st.waitingQueue := by
    have hpre : ∀ b ∈ st.waitingQueue, ¬((b.wid == wid) = true) := by
      intro b hb
      simp [hFresh b hb]
    rw [List.eraseP_append_right _ hpre]
    simp [List.eraseP_cons]
  refine ⟨by rw [hstep], by rw [hstep], rfl, ?_, ?_, ?_, rfl⟩
  · rw [hstep]
    simp [waiterTimeoutFire, hany]
  · rw [hstep]
    simp [waiterTimeoutFire, hany, herase]
  · rw [hstep]
    simp [waiterTimeoutFire, hany]

/-- Witness for claim C4 at a concrete input: a saturated pool with one
busy connection, caller `11` at time `2`. -/
theorem waiter_fifo_timeout_null_witness :
    (selectBest 2 saturatedPoolSt.pool = none ∧
      (decide (saturatedPoolSt.pool.length < saturatedPoolSt.maxPoolSize) &&
        !saturatedPoolSt.scalingLock) = false ∧
      (∀ w ∈ saturatedPoolSt.waitingQueue, (w.wid == 11) = false)) ∧
    ((getConnectionStep 2 11 saturatedPoolSt).2
        = GetResult.queued { wid := 11, timestamp := 2 } ∧
      (getConnectionStep 2 11 saturatedPoolSt).1.waitingQueue
        = saturatedPoolSt.waitingQueue ++ [{ wid := 11, timestamp := 2 }] ∧
      waiterTimeoutMs = 5000 ∧
      (waiterTimeoutFire 11 (getConnectionStep 2 11 saturatedPoolSt).1).2 = true ∧
      (waiterTimeoutFire 11 (getConnectionStep 2 11 saturatedPoolSt).1).1.waitingQueue
        = saturatedPoolSt.waitingQueue ∧
      (waiterTimeoutFire 11 (getConnectionStep 2 11 saturatedPoolSt).1).1.stats.waitingRequests
        = saturatedPoolSt.stats.waitingRequests ∧
      handleAcquired none = ForwarderAction.destroyClient) :=
  ⟨by refine ⟨by decide, by decide, by decide⟩,
   waiter_fifo_timeout_null 2 11 saturatedPoolSt (by decide) (by decide) (by decide)⟩

/-! ## Claim C5 — length-1 range rule vs single-port rule -/

/-- Claim C5 fails on the code at ports `29171 → 8001`: the length-1
range rule and the single-port rule produce forwarders with different
pool configurations (the range branch passes explicit options, the
single-port branch uses the constructor defaults), e.g. a minimum pool
size of `3` versus `5`. -/
theorem range_length_one_differs :
    startTCPServer (lengthOneRangeRule 29171 8001)
      ≠ startTCPServer (singlePortRule 29171 8001) ∧
    (mkPool "10.0.0.1" 8001 rangePoolOptions).minPoolSize = 3 ∧
    (mkPool "10.0.0.1" 8001 ({} : PoolOptions)).minPoolSize = 5 := by
  decide

/-- Claim C5 as amended: a length-1 range rule yields exactly one
forwarder with the same `(localPort, targetPort)` mapping as the
equivalent single-port rule, but the pool configurations differ —
the range branch constructs its pool with
`min 3 / max 30 / initial 8` (thresholds `3/4` and `1/4`), while the
single-port branch constructs it with the defaults
`min 5 / max 50 / initial 10` (thresholds `4/5` and `3/10`). -/
theorem range_length_one_same_mapping (p q : Int)
    (hp : (p != 0) = true) (hq : (q != 0) = true) :
    startTCPServer (lengthOneRangeRule p q)
      = [{ localPort := p, targetPort := q, poolOptions := rangePoolOptions }] ∧
    startTCPServer (singlePortRule p q)
      = [{ localPort := p, targetPort := q, poolOptions := {} }] ∧
    (mkPool "10.0.0.1" q rangePoolOptions).minPoolSize = 3 ∧
    (mkPool "10.0.0.1" q rangePoolOptions).maxPoolSize = 30 ∧
    (mkPool "10.0.0.1" q rangePoolOptions).initialPoolSize = 8 ∧
    (mkPool "10.0.0.1" q rangePoolOptions).scaleUpThreshold = mkRat 3 4 ∧
    (mkPool "10.0.0.1" q rangePoolOptions).scaleDownThreshold = mkRat 1 4 ∧
    (mkPool "10.0.0.1" q ({} : PoolOptions)).minPoolSize = 5 ∧
    (mkPool "10.0.0.1" q ({} : PoolOptions)).maxPoolSize = 50 ∧
    (mkPool "10.0.0.1" q ({} : PoolOptions)).initialPoolSize = 10 ∧
    (mkPool "10.0.0.1" q ({} : PoolOptions)).scaleUpThreshold = mkRat 4 5 ∧
    (mkPool "10.0.0.1" q ({} : PoolOptions)).scaleDownThreshold = mkRat 3 10 := by
  have h1 : rangeReject [p, p] [q, q] = false := by
    simp [rangeReject]
  refine ⟨?_, ?_, ?_, ?_, ?_, ?_, ?_, ?_, ?_, ?_, ?_, ?_⟩
  · simp [startTCPServer, lengthOneRangeRule, h1, List.range_succ]
  · simp [startTCPServer, singlePortRule, truthyPort, hp, hq]
  all_goals simp [mkPool, rangePoolOptions, orDefaultNat, orDefaultRat]

/-- Witness for the amended claim C5 at ports `29171 → 8001`. -/
theorem range_length_one_same_mapping_witness :
    (((29171 : Int) != 0) = true ∧ ((8001 : Int) != 0) = true) ∧
    (startTCPServer (lengthOneRangeRule 29171 8001)
      = [{ localPort := 29171, targetPort := 8001, poolOptions := rangePoolOptions }] ∧
     startTCPServer (singlePortRule 29171 8001)
      = [{ localPort := 29171, targetPort := 8001, poolOptions := {} }]) :=
  ⟨⟨by decide, by decide⟩,
   ⟨(range_length_one_same_mapping 29171 8001 (by decide) (by decide)).1,
    (range_length_one_same_mapping 29171 8001 (by decide) (by decide)).2.1⟩⟩

/-! ## Claim C8 — range validation accept/reject -/

/-- Claim C8: a rule in range form is accepted (produces at least one
forwarder) exactly when both arrays have length 2, each start is at
most its end, and the two ranges have equal length; a rejected rule
yields the empty forwarder list, for TCP and UDP alike; and the
startup loop processes each rule independently, so a rejected rule
never stops the remaining rules from being started. -/
theorem range_rule_validation_iff (rule : Rule) (lpr tpr : List Int)
    (hl : rule.localPortRange = some lpr) (ht : rule.targetPortRange = some tpr) :
    (startTCPServer rule ≠ [] ↔ rangeReject lpr tpr = false) ∧
    (startUDPServer rule ≠ [] ↔ rangeReject lpr tpr = false) ∧
    (rangeReject lpr tpr = false ↔
      (lpr.length = 2 ∧ tpr.length = 2 ∧ lpr.getD 0 0 ≤ lpr.getD 1 0 ∧
       tpr.getD 0 0 ≤ tpr.getD 1 0 ∧
       lpr.getD 1 0 - lpr.getD 0 0 = tpr.getD 1 0 - tpr.getD 0 0)) ∧
    (∀ r rs, startAllRules (r :: rs) = startRule r ++ startAllRules rs) := by
  refine ⟨?_, ?_, ?_, ?_⟩
  · by_cases hr : rangeReject lpr tpr = true
    · simp [startTCPServer, hl, ht, hr]
    · simp [startTCPServer, hl, ht, hr]
      exact ⟨0, by omega⟩
  · by_cases hr : rangeReject lpr tpr = true
    · simp [startUDPServer, hl, ht, hr]
    · simp [startUDPServer, hl, ht, hr]
      exact ⟨0, by omega⟩
  · simp [rangeReject, not_lt]
    tauto
  · intro r rs
    simp [startAllRules]

/-- Witness for claim C8 at the specification's scenario-6 rule: ranges
`[10, 12]` and `[20, 21]` have unequal lengths, so the rule is
rejected and `startTCPServer` returns no forwarder. -/
theorem range_rule_validation_iff_witness :
    (mismatchedRangeRule.localPortRange = some [10, 12] ∧
      mismatchedRangeRule.targetPortRange = some [20, 21]) ∧
    (startTCPServer mismatchedRangeRule ≠ [] ↔
      rangeReject [10, 12] [20, 21] = false) :=
  ⟨⟨rfl, rfl⟩,
   (range_rule_validation_iff mismatchedRangeRule [10, 12] [20, 21] rfl rfl).1⟩

/-! ## Claim C3 — error on either side of a forwarding pair -/

/-- Erasing the unique match of a predicate leaves no match. -/
theorem filter_eraseP_eq_nil {α : Type} (q : α → Bool) :
    ∀ l : List α, (l.filter q).length ≤ 1 → (l.eraseP q).filter q = [] := by
  intro l
  induction l with
  | nil => intro h; rfl
  | cons c t ih =>
    intro h
    cases hq : q c with
    | true =>
      simp only [List.eraseP_cons, hq, cond_true]
      rw [List.filter_cons_of_pos hq, List.length_cons] at h
      exact List.length_eq_zero.mp (by omega)
    | false =>
      simp only [List.eraseP_cons, hq, cond_false]
      rw [List.filter_cons_of_neg (by simp [hq])]
      rw [List.filter_cons_of_neg (by simp [hq])] at h
      exact ih h

/-- The update `setIdleFirst` does not change which entries match a socket. -/
theorem setIdleFirst_filter_sock (s : Nat) (b : Bool) :
    ∀ l : List Conn, ((setIdleFirst l s b).filter (fun c => c.socket == s)).length
      = (l.filter (fun c => c.socket == s)).length := by
  intro l
  induction l with
  | nil => rfl
  | cons c t ih =>
    by_cases hc : (c.socket == s) = true
    · simp [setIdleFirst, hc, List.filter_cons]
    · simp only [setIdleFirst, hc, Bool.false_eq_true, if_false]
      rw [List.filter_cons_of_neg (by simp [hc]), List.filter_cons_of_neg (by simp [hc])]
      exact ih

/-- The update `bumpErrorsFirst` does not change which entries match a socket. -/
theorem bumpErrorsFirst_filter_sock (s : Nat) :
    ∀ l : List Conn, ((bumpErrorsFirst l s).filter (fun c => c.socket == s)).length
      = (l.filter (fun c => c.socket == s)).length := by
  intro l
  induction l with
  | nil => rfl
  | cons c t ih =>
    by_cases hc : (c.socket == s) = true
    · simp [bumpErrorsFirst, hc, List.filter_cons]
    · simp only [bumpErrorsFirst, hc, Bool.false_eq_true, if_false]
      rw [List.filter_cons_of_neg (by simp [hc]), List.filter_cons_of_neg (by simp [hc])]
      exact ih

/-- A unique predicate match makes `find?` succeed. -/
theorem find?_isSome_of_filter_length_one {α : Type} (q : α → Bool) (l : List α)
    (h : (l.filter q).length = 1) : (l.find? q).isSome = true := by
  have hne : l.filter q ≠ [] := by
    intro hnil
    rw [hnil] at h
    simp at h
  obtain ⟨x, hx⟩ := List.exists_mem_of_ne_nil _ hne
  exact List.find?_isSome.mpr ⟨x, (List.mem_filter.mp hx).1, (List.mem_filter.mp hx).2⟩

/-- No predicate match makes `find?` fail. -/
theorem find?_eq_none_of_filter_eq_nil {α : Type} (q : α → Bool) (l : List α)
    (h : l.filter q = []) : l.find? q = none := by
  apply List.find?_eq_none.mpr
  intro x hx
  simpa using List.filter_eq_nil_iff.mp h x hx

/-- The pool after `removeConnection` when the socket is pooled: the
first matching entry is spliced out. -/
theorem removeConnection_pool_some (s : Nat) (st : PoolState)
    (h : (st.pool.find? (fun c => c.socket == s)).isSome = true) :
    (removeConnection s st).pool = st.pool.eraseP (fun c => c.socket == s) := by
  unfold removeConnection
  cases hfind : st.pool.find? (fun c => c.socket == s) with
  | none => rw [hfind] at h; simp at h
  | some c =>
    cases hq : st.waitingQueue with
    | nil => simp [hfind, hq]
    | cons w ws => simp [hfind, hq]

/-- The pool after `removeConnection` when the socket is not pooled:
unchanged. -/
theorem removeConnection_pool_none (s : Nat) (st : PoolState)
    (h : st.pool.find? (fun c => c.socket == s) = none) :
    (removeConnection s st).pool = st.pool := by
  unfold removeConnection
  cases hq : st.waitingQueue with
  | nil => simp [h, hq]
  | cons w ws => simp [h, hq]

/-- Claim C3 fails on the code: when the client (local) socket errors
while a waiter is queued, the forwarder calls
`releaseConnection(tcpTargetSocket)` before destroying the upstream
socket, and the release re-lends the errored socket to the head waiter
(waiter `9` receives socket `5`), contradicting the claim that the
upstream is removed without release and never re-lent. -/
theorem local_error_relends_errored_socket :
    (onLocalError 100 5 erroredPairSt).2 = some 9 := by
  decide

/-- Claim C3 as amended: on an upstream (target) socket error the
pool's own error listener removes the connection first, so the
forwarder's subsequent release finds nothing — the connection leaves
the pool without being released or re-lent.  On a client (local)
socket error, however, the forwarder releases the upstream before
destroying it: with a waiter queued the errored socket is handed to
the head waiter, and only then does the destroy-triggered removal take
the connection out of the pool. -/
theorem error_handler_amended :
    (∀ (now s : Nat) (st : PoolState),
      (st.pool.filter (fun c => c.socket == s)).length = 1 →
      (onTargetError now s st).1.pool.filter (fun c => c.socket == s) = [] ∧
      (onTargetError now s st).2 = none) ∧
    (∀ (now s : Nat) (st : PoolState) (w : Waiter) (ws : List Waiter),
      (st.pool.filter (fun c => c.socket == s)).length = 1 →
      st.waitingQueue = w :: ws →
      (onLocalError now s st).2 = some w.wid ∧
      (onLocalError now s st).1.pool.filter (fun c => c.socket == s) = []) := by
  constructor
  · intro now s st hcount
    unfold onTargetError
    set st1 : PoolState :=
      { st with
        pool := bumpErrorsFirst st.pool s
        stats := { st.stats with errors := st.stats.errors + 1 } } with hst1
    have hcount1 : (st1.pool.filter (fun c => c.socket == s)).length = 1 := by
      rw [hst1]
      rw [show ({ st with
        pool := bumpErrorsFirst st.pool s
        stats := { st.stats with errors := st.stats.errors + 1 } } : PoolState).pool
          = bumpErrorsFirst st.pool s from rfl]
      rw [bumpErrorsFirst_filter_sock]
      exact hcount
    have hsome1 : (st1.pool.find? (fun c => c.socket == s)).isSome = true :=
      find?_isSome_of_filter_length_one _ _ hcount1
    have hpool2 : (removeConnection s st1).pool
        = st1.pool.eraseP (fun c => c.socket == s) :=
      removeConnection_pool_some s st1 hsome1
    have hnil2 : (removeConnection s st1).pool.filter (fun c => c.socket == s) = [] := by
      rw [hpool2]
      exact filter_eraseP_eq_nil _ _ (by omega)
    have hfind2 : ((removeConnection s st1).pool.find? (fun c => c.socket == s)) = none :=
      find?_eq_none_of_filter_eq_nil _ _ hnil2
    have hrel : releaseConnection now s (removeConnection s st1)
        = (removeConnection s st1, none) := by
      unfold releaseConnection
      rw [hfind2]
    have hpool3 : (removeConnection s (removeConnection s st1)).pool
        = (removeConnection s st1).pool :=
      removeConnection_pool_none s _ hfind2
    refine ⟨?_, ?_⟩
    · show (removeConnection s (releaseConnection now s (removeConnection s st1)).1).pool.filter
        (fun c => c.socket == s) = []
      rw [hrel]
      rw [hpool3]
      exact hnil2
    · show (releaseConnection now s (removeConnection s st1)).2 = none
      rw [hrel]
  · intro now s st w ws hcount hqueue
    have hsome : (st.pool.find? (fun c => c.socket == s)).isSome = true :=
      find?_isSome_of_filter_length_one _ _ hcount
    cases hfind : st.pool.find? (fun c => c.socket == s) with
    | none => rw [hfind] at hsome; simp at hsome
    | some c =>
      have hsnd : (releaseConnection now s st).2 = some w.wid := by
        simp only [releaseConnection, hfind, hqueue]
      have hpool1 : (releaseConnection now s st).1.pool
          = setIdleFirst (setIdleFirst st.pool s true) s false := by
        simp only [releaseConnection, hfind, hqueue]
      have hcount1 : ((releaseConnection now s st).1.pool.filter
          (fun c => c.socket == s)).length = 1 := by
        rw [hpool1, setIdleFirst_filter_sock, setIdleFirst_filter_sock]
        exact hcount
      have hsome1 : ((releaseConnection now s st).1.pool.find?
          (fun c => c.socket == s)).isSome = true :=
        find?_isSome_of_filter_length_one _ _ hcount1
      have hpool2 : (removeConnection s (releaseConnection now s st).1).pool
          = (releaseConnection now s st).1.pool.eraseP (fun c => c.socket == s) :=
        removeConnection_pool_some s _ hsome1
      constructor
      · show (releaseConnection now s st).2 = some w.wid
        exact hsnd
      · show (removeConnection s (releaseConnection now s st).1).pool.filter
          (fun c => c.socket == s) = []
        rw [hpool2]
        exact filter_eraseP_eq_nil _ _ (by omega)

/-- Witness for the amended claim C3 at a concrete input: in
`erroredPairSt` socket `5` is the unique pooled connection and waiter
`9` heads the queue; a target-socket error removes the connection
without handing it to anyone, while a local-socket error hands
socket `5` to waiter `9` before the removal. -/
theorem error_handler_amended_witness :
    ((erroredPairSt.pool.filter (fun c => c.socket == 5)).length = 1 ∧
      (onTargetError 100 5 erroredPairSt).1.pool.filter (fun c => c.socket == 5) = [] ∧
      (onTargetError 100 5 erroredPairSt).2 = none) ∧
    (erroredPairSt.waitingQueue = { wid := 9, timestamp := 50 } :: [] ∧
      (onLocalError 100 5 erroredPairSt).2
        = some ({ wid := 9, timestamp := 50 } : Waiter).wid ∧
      (onLocalError 100 5 erroredPairSt).1.pool.filter (fun c => c.socket == 5) = []) :=
  ⟨⟨by decide,
    (error_handler_amended.1 100 5 erroredPairSt (by decide)).1,
    (error_handler_amended.1 100 5 erroredPairSt (by decide)).2⟩,
   ⟨rfl,
    (error_handler_amended.2 100 5 erroredPairSt { wid := 9, timestamp := 50 } []
      (by decide) rfl).1,
    (error_handler_amended.2 100 5 erroredPairSt { wid := 9, timestamp := 50 } []
      (by decide) rfl).2⟩⟩

/-- Claim C6 fails on the code: on a started UDP proxy with two
sessions, the first `stop()` completes cleanly (no error, server
closed, table cleared), but the second `stop()` — since `stop()`
never nulls `this.server` — reaches `this.server.close()` on the
already-closed dgram socket and throws
`ERR_SOCKET_DGRAM_NOT_RUNNING`: the second call fails instead of
being a no-op. -/
theorem udp_stop_twice_throws :
    (udpStop udpSessionsSt).2 = none ∧
    (udpStop udpSessionsSt).1.server = some true ∧
    (udpStop udpSessionsSt).1.clients = [] ∧
    (udpStop (udpStop udpSessionsSt).1).2 = some "ERR_SOCKET_DGRAM_NOT_RUNNING" := by
  decide

/-! ## Claim C9 — `releaseConnection` on a foreign socket -/

/-- Claim C9: releasing a socket that belongs to no pooled connection
changes nothing: pool, stats, waiter queue and activity map are all
untouched, and no waiter is woken. -/
theorem release_foreign_socket_noop (now s : Nat) (st : PoolState)
    (h : ∀ c ∈ st.pool, (c.socket == s) = false) :
    releaseConnection now s st = (st, none) := by
  have hfind : st.pool.find? (fun c => c.socket == s) = none := by
    apply List.find?_eq_none.mpr
    intro c hc
    simp [h c hc]
  simp [releaseConnection, hfind]

/-- Witness for claim C9 at a concrete input: socket `99` is not pooled
in `dialHandoutSt`, and releasing it returns the state unchanged. -/
theorem release_foreign_socket_noop_witness :
    (∀ c ∈ dialHandoutSt.pool, (c.socket == 99) = false) ∧
    releaseConnection 5 99 dialHandoutSt = (dialHandoutSt, none) :=
  ⟨by decide, release_foreign_socket_noop 5 99 dialHandoutSt (by decide)⟩

/-! ## Claim C10 — monitor tick on an empty pool -/

/-- Claim C10: on an empty pool the monitor tick is a no-op — the
active ratio is defined as `0`, and (whenever `0 ≤ scaleUpThreshold`,
as holds for every pool this code constructs) neither scaling branch
fires: the ratio does not exceed the scale-up threshold and the empty
pool cannot exceed `minPoolSize`, so the state is unchanged and the
pool is never repopulated by the monitor. -/
theorem monitor_empty_pool_noop (now : Nat) (st : PoolState)
    (hEmpty : st.pool = [])
    (hThr : 0 ≤ st.scaleUpThreshold) :
    activeRatio st = 0 ∧ monitorDecision now st = ScaleDecision.none ∧
    monitorStep now st = st := by
  have hratio : activeRatio st = 0 := by
    simp [ activeRatio, hEmpty]
  have hdec : monitorDecision now st = ScaleDecision.none := by
    unfold monitorDecision
    by_cases hl : (st.scalingLock || decide (now - st.lastScaleTime < st.scaleInterval)) = true
    · simp [hl]
    · have h1 : ¬ ( activeRatio st > st.scaleUpThreshold ∧ st.pool.length < st.maxPoolSize) := by
        intro hc
        rw [hratio] at hc
        exact absurd hc.1 (not_lt.mpr hThr)
      have h2 : ¬ ( activeRatio st < st.scaleDownThreshold ∧ st.pool.length > st.minPoolSize) := by
        intro hc
        have hlen := hc.2
        rw [hEmpty] at hlen
        simp at hlen
      simp [hl, h1, h2]
  exact ⟨hratio, hdec, by simp [monitorStep, hdec]⟩

/-! ## Claim C7 — UDP last-activity monotonicity and strict eviction -/

/-- Looking up the key just set in a `Map` yields the set value. -/
theorem mapLookup_mapSet_self {α β : Type} [BEq α] [LawfulBEq α]
    (m : List (α × β)) (k : α) (v : β) :
    mapLookup (mapSet m k v) k = some v := by
  induction m with
  | nil => simp [mapSet, mapLookup]
  | cons kv rest ih =>
    by_cases h : (kv.1 == k) = true
    · simp [mapSet, h, mapLookup]
    · simp only [mapSet, h, Bool.false_eq_true, if_false]
      simpa [mapLookup, List.find?_cons_of_neg, h] using ih

/-- In a `Map` with distinct keys, looking up the key of a stored
entry yields that entry's value. -/
theorem mapLookup_of_mem_nodup {α β : Type} [BEq α] [LawfulBEq α]
    (m : List (α × β)) (kv : α × β)
    (hnd : (m.map Prod.fst).Nodup) (hmem : kv ∈ m) :
    mapLookup m kv.1 = some kv.2 := by
  induction m with
  | nil => simp at hmem
  | cons e rest ih =>
    rcases List.mem_cons.mp hmem with heq | hmem2
    · subst heq
      simp [mapLookup]
    · have hnotin : e.1 ∉ rest.map Prod.fst :=
        (List.nodup_cons.mp (by simpa only [List.map_cons] using hnd)).1
      have hne : e.1 ≠ kv.1 := by
        intro heq2
        exact hnotin (heq2 ▸ List.mem_map_of_mem Prod.fst hmem2)
      have hbeq : (e.1 == kv.1) = false := by
        simpa using hne
      have ih2 := ih ((List.nodup_cons.mp (by simpa only [List.map_cons] using hnd)).2) hmem2
      simpa [mapLookup, List.find?_cons_of_neg, hbeq] using ih2

/-- In a `Map` with distinct keys, deleting a key is filtering it out. -/
theorem mapDelete_eq_filter_of_nodup {α β : Type} [BEq α] [LawfulBEq α]
    (m : List (α × β)) (k : α) (hnd : (m.map Prod.fst).Nodup) :
    mapDelete m k = m.filter (fun kv => !(kv.1 == k)) := by
  induction m with
  | nil => rfl
  | cons e rest ih =>
    by_cases h : (e.1 == k) = true
    · have hk : e.1 = k := by simpa using h
      have hnotin : e.1 ∉ rest.map Prod.fst :=
        (List.nodup_cons.mp (by simpa only [List.map_cons] using hnd)).1
      have hall : rest.filter (fun kv => !(kv.1 == k)) = rest := by
        apply List.filter_eq_self.mpr
        intro kv hkv
        have hne : kv.1 ≠ k := by
          intro he
          exact hnotin (by
            rw [hk, ← he]
            exact List.mem_map_of_mem Prod.fst hkv)
        simpa using hne
      simp [mapDelete, h, List.filter_cons, hall]
    · have ih2 := ih ((List.nodup_cons.mp (by simpa only [List.map_cons] using hnd)).2)
      simp [mapDelete, h, List.filter_cons, ih2]

/-- Characterization of the sweep loop: starting from a state whose
table has distinct, well-formed keys and iterating over a sub-multiset
of its entries (also with distinct keys), the loop removes exactly the
iterated entries that are strictly stale, closes exactly their
upstream sockets (in order), and leaves `clientTimeout` unchanged. -/
theorem cleanupGo_spec (now : Nat) (l : List (String × UDPClient)) :
    ∀ (acc : UDPProxyState),
      (acc.clients.map Prod.fst).Nodup →
      (∀ kv ∈ acc.clients, kv.1 = clientKey kv.2.info) →
      (∀ kv ∈ l, kv ∈ acc.clients) →
      ((l.map Prod.fst).Nodup) →
      (cleanupGo now l acc).clients
        = acc.clients.filter
            (fun kv => !(l.any (fun e => e.1 == kv.1) &&
                         decide (now - kv.2.lastActivity > acc.clientTimeout))) ∧
      (cleanupGo now l acc).closedSockets
        = acc.closedSockets
          ++ (l.filter (fun kv => decide (now - kv.2.lastActivity > acc.clientTimeout))).map
              (fun kv => kv.2.targetSocket) ∧
      (cleanupGo now l acc).clientTimeout = acc.clientTimeout := by
  induction l with
  | nil =>
    intro acc _ _ _ _
    refine ⟨?_, ?_, rfl⟩
    · simp [cleanupGo]
    · simp [cleanupGo]
  | cons e rest ih =>
    intro acc h1 h2 h3 h4
    have heacc : e ∈ acc.clients := h3 e (List.mem_cons_self e rest)
    have hekey : e.1 = clientKey e.2.info := h2 e heacc
    have hnd4 := List.nodup_cons.mp (by simpa only [List.map_cons] using h4)
    have hstep : cleanupGo now (e :: rest) acc
        = cleanupGo now rest
            (if now - e.2.lastActivity > acc.clientTimeout then removeClient e.2.info acc
             else acc) := rfl
    by_cases hstale : now - e.2.lastActivity > acc.clientTimeout
    · -- the head entry is stale and gets removed
      rw [hstep, if_pos hstale]
      have hlook : mapLookup acc.clients (clientKey e.2.info) = some e.2 := by
        rw [← hekey]
        exact mapLookup_of_mem_nodup acc.clients e h1 heacc
      have hacc : removeClient e.2.info acc
          = { acc with
              clients := mapDelete acc.clients (clientKey e.2.info)
              closedSockets := acc.closedSockets ++ [e.2.targetSocket] } := by
        unfold removeClient
        rw [hlook]
      have hclients : (removeClient e.2.info acc).clients
          = acc.clients.filter (fun kv => !(kv.1 == e.1)) := by
        rw [hacc]
        show mapDelete acc.clients (clientKey e.2.info) = _
        rw [← hekey]
        exact mapDelete_eq_filter_of_nodup acc.clients e.1 h1
      have hclosed : (removeClient e.2.info acc).closedSockets
          = acc.closedSockets ++ [e.2.targetSocket] := by rw [hacc]
      have hT : (removeClient e.2.info acc).clientTimeout = acc.clientTimeout := by
        rw [hacc]
      have h1' : (((removeClient e.2.info acc).clients).map Prod.fst).Nodup := by
        rw [hclients]
        exact List.Nodup.sublist (List.Sublist.map _ (List.filter_sublist _)) h1
      have h2' : ∀ kv ∈ (removeClient e.2.info acc).clients, kv.1 = clientKey kv.2.info := by
        rw [hclients]
        intro kv hkv
        exact h2 kv (List.mem_of_mem_filter hkv)
      have h3' : ∀ kv ∈ rest, kv ∈ (removeClient e.2.info acc).clients := by
        rw [hclients]
        intro kv hkv
        refine List.mem_filter.mpr ⟨h3 kv (List.mem_cons_of_mem e hkv), ?_⟩
        have hne : kv.1 ≠ e.1 := by
          intro hh
          exact hnd4.1 (hh ▸ List.mem_map_of_mem Prod.fst hkv)
        simpa using hne
      obtain ⟨ihc, ihs, iht⟩ := ih (removeClient e.2.info acc) h1' h2' h3' hnd4.2
      refine ⟨?_, ?_, ?_⟩
      · rw [ihc, hT, hclients, List.filter_filter]
        apply List.filter_congr
        intro kv hkv
        by_cases hk : e.1 = kv.1
        · have hkv_eq : e = kv := List.inj_on_of_nodup_map h1 heacc hkv hk
          cases hkv_eq
          simp [hstale]
        · have hbe : (kv.1 == e.1) = false := by
            simpa using fun hh => hk hh.symm
          have hbe2 : (e.1 == kv.1) = false := by
            simpa using hk
          simp [hbe, hbe2]
      · rw [ihs, hT, hclosed, List.filter_cons_of_pos (by simpa using hstale),
          List.map_cons, List.append_assoc]
        rfl
      · rw [iht, hT]
    · -- the head entry is fresh and stays
      rw [hstep, if_neg hstale]
      obtain ⟨ihc, ihs, iht⟩ :=
        ih acc h1 h2 (fun kv hkv => h3 kv (List.mem_cons_of_mem e hkv)) hnd4.2
      refine ⟨?_, ?_, iht⟩
      · rw [ihc]
        apply List.filter_congr
        intro kv hkv
        by_cases hskv : now - kv.2.lastActivity > acc.clientTimeout
        · have hkne : (e.1 == kv.1) = false := by
            by_cases hk : e.1 = kv.1
            · have hkv_eq : e = kv := List.inj_on_of_nodup_map h1 heacc hkv hk
              cases hkv_eq
              exact absurd hskv hstale
            · simpa using hk
          simp [List.any_cons, hkne]
        · simp [hskv]
      · rw [ihs, List.filter_cons_of_neg (by simpa using hstale)]

/-- Claim C7: `lastActivity` of a UDP session is set to the current
time on every inbound datagram from that client (so it never
decreases under a monotone clock), and the periodic sweep — on a
table with distinct, well-formed keys — removes exactly the sessions
with `now - lastActivity > clientTimeout` (strictly; a session whose
idle age equals the timeout survives), closing exactly the upstream
sockets of the removed sessions. -/
theorem udp_activity_monotone_strict_eviction (now : Nat) (st : UDPProxyState)
    (hnd : (st.clients.map Prod.fst).Nodup)
    (hwf : ∀ kv ∈ st.clients, kv.1 = clientKey kv.2.info) :
    (∀ (freshSock : Nat) (info : UDPClientInfo),
      ∃ d, mapLookup (handleMessage now freshSock info st).clients (clientKey info)
            = some d ∧ d.lastActivity = now) ∧
    (∀ (freshSock : Nat) (info : UDPClientInfo) (c : UDPClient),
      mapLookup st.clients (clientKey info) = some c →
      c.lastActivity ≤ now →
      ∀ d, mapLookup (handleMessage now freshSock info st).clients (clientKey info)
            = some d → c.lastActivity ≤ d.lastActivity) ∧
    (cleanupStaleClients now st).clients
      = st.clients.filter
          (fun kv => !(decide (now - kv.2.lastActivity > st.clientTimeout))) ∧
    (cleanupStaleClients now st).closedSockets
      = st.closedSockets
        ++ (st.clients.filter
              (fun kv => decide (now - kv.2.lastActivity > st.clientTimeout))).map
            (fun kv => kv.2.targetSocket) := by
  obtain ⟨hc, hs, _⟩ :=
    cleanupGo_spec now st.clients st hnd hwf (fun kv h => h) hnd
  have hmem_any : ∀ kv ∈ st.clients,
      (st.clients.any (fun e => e.1 == kv.1)) = true := by
    intro kv hkv
    exact List.any_eq_true.mpr ⟨kv, hkv, by simp⟩
  refine ⟨?_, ?_, ?_, ?_⟩
  · intro freshSock info
    cases hl : mapLookup st.clients (clientKey info) with
    | none =>
      refine ⟨{ info := info, targetSocket := freshSock, lastActivity := now }, ?_, rfl⟩
      simp only [handleMessage, hl]
      exact mapLookup_mapSet_self _ _ _
    | some c =>
      refine ⟨{ c with lastActivity := now }, ?_, rfl⟩
      simp only [handleMessage, hl]
      exact mapLookup_mapSet_self _ _ _
  · intro freshSock info c hc2 hle d hd
    simp only [handleMessage, hc2] at hd
    rw [mapLookup_mapSet_self] at hd
    cases hd
    exact hle
  · rw [show cleanupStaleClients now st = cleanupGo now st.clients st from rfl, hc]
    apply List.filter_congr
    intro kv hkv
    simp [hmem_any kv hkv]
  · rw [show cleanupStaleClients now st = cleanupGo now st.clients st from rfl, hs]

/-- Witness for claim C7 at a concrete input: in `udpSessionsSt` the
session keys are distinct and well formed; sweeping at time `301000`
evicts the session idle since `0` (301000 > 300000, strictly) and
keeps the session idle since `200000` (101000 ≤ 300000). -/
theorem udp_activity_monotone_strict_eviction_witness :
    ((udpSessionsSt.clients.map Prod.fst).Nodup ∧
      ∀ kv ∈ udpSessionsSt.clients, kv.1 = clientKey kv.2.info) ∧
    ((cleanupStaleClients 301000 udpSessionsSt).clients
        = udpSessionsSt.clients.filter
            (fun kv => !(decide (301000 - kv.2.lastActivity > udpSessionsSt.clientTimeout))) ∧
      (cleanupStaleClients 301000 udpSessionsSt).closedSockets
        = udpSessionsSt.closedSockets
          ++ (udpSessionsSt.clients.filter
                (fun kv => decide (301000 - kv.2.lastActivity > udpSessionsSt.clientTimeout))).map
              (fun kv => kv.2.targetSocket)) :=
  ⟨⟨by decide, by decide⟩,
   (udp_activity_monotone_strict_eviction 301000 udpSessionsSt
      (by decide) (by decide)).2.2.1,
   (udp_activity_monotone_strict_eviction 301000 udpSessionsSt
      (by decide) (by decide)).2.2.2⟩

/-- Witness for claim C10 at a concrete input: the freshly constructed
default pool is empty, its threshold satisfies the bound, and the
monitor tick at time `0` changes nothing. -/
theorem monitor_empty_pool_noop_witness :
    (defaultPool.pool = [] ∧ 0 ≤ defaultPool.scaleUpThreshold) ∧
    ( activeRatio defaultPool = 0 ∧
      monitorDecision 0 defaultPool = ScaleDecision.none ∧
      monitorStep 0 defaultPool = defaultPool) :=
  ⟨by decide, monitor_empty_pool_noop 0 defaultPool (by decide) (by decide)⟩

end FireProxy
